import Mathlib

/-!
Verification development for the personal-finance-analyzer backend
(`src/backend/services/{data_parser,pdf_parser,categorizer,analyzer}.py`).

Modelling conventions:
* Python `float` money values are modelled as `ℚ` (all claims under study are
  either structural or stated up to rounding tolerance).
* Python `round(x, n)` is modelled by `Rat` rounding via `round : ℚ → ℤ`
  (round half up).  Python uses round-half-even; the proofs only use the bound
  `|round x - x| ≤ 1/2` and exact values away from ties, which hold for both.
* `datetime.strptime` and `float()`-coercion of loosely typed strings are
  library primitives; they are passed as explicit parameters (`Prims`), just
  like the opaque language-model extraction call.
* `dict` values are modelled as association lists where a later binding for a
  key overwrites the earlier one.
-/

namespace PFA

/-! ## Calendar dates (`datetime.date` values, time-of-day irrelevant here) -/

structure Date where
  year : Int
  month : Nat
  day : Nat
deriving DecidableEq, Repr

/-- Days since 1970-01-01 of a civil date (standard civil-from-days algorithm,
floor division throughout). This models `datetime` subtraction and ordering. -/
def daysFromCivil (dt : Date) : Int :=
  let y : Int := if dt.month ≤ 2 then dt.year - 1 else dt.year
  let m : Int := dt.month
  let d : Int := dt.day
  let era : Int := y.fdiv 400
  let yoe : Int := y - era * 400
  let mp : Int := (m + 9) % 12
  let doy : Int := (153 * mp + 2).fdiv 5 + d - 1
  let doe : Int := yoe * 365 + yoe.fdiv 4 - yoe.fdiv 100 + doy
  era * 146097 + doe - 719468

/-- Inverse of `daysFromCivil`. -/
def civilFromDays (z0 : Int) : Date :=
  let z := z0 + 719468
  let era := z.fdiv 146097
  let doe := z - era * 146097
  let yoe := (doe - doe.fdiv 1460 + doe.fdiv 36524 - doe.fdiv 146096).fdiv 365
  let y := yoe + era * 400
  let doy := doe - (365 * yoe + yoe.fdiv 4 - yoe.fdiv 100)
  let mp := (5 * doy + 2).fdiv 153
  let d := doy - (153 * mp + 2).fdiv 5 + 1
  let m := mp + (if mp < 10 then 3 else -9)
  ⟨y + (if m ≤ 2 then 1 else 0), m.toNat, d.toNat⟩

/-- Key used for `datetime` comparison and subtraction (`.days`). -/
def dateKey (d : Date) : Int := daysFromCivil d

/-- Python `datetime.weekday()`: Monday = 0 … Sunday = 6
(1970-01-01 was a Thursday). -/
def pyWeekday (d : Date) : Int := (daysFromCivil d + 3) % 7

/-- `pandas` `day_name()` from the Python weekday index. -/
def dayName (w : Int) : String :=
  if w = 0 then "Monday" else if w = 1 then "Tuesday" else if w = 2 then "Wednesday"
  else if w = 3 then "Thursday" else if w = 4 then "Friday" else if w = 5 then "Saturday"
  else "Sunday"

/-- Gregorian leap year (`calendar.isleap`). -/
def isLeapYear (y : Int) : Bool := y % 4 = 0 && (y % 100 ≠ 0 || y % 400 = 0)

/-- `calendar.monthrange(y, m)[1]`: the number of days of month `m` of year `y`. -/
def daysInMonth (y : Int) (m : Nat) : Nat :=
  if m = 2 then (if isLeapYear y then 29 else 28)
  else if m = 4 ∨ m = 6 ∨ m = 9 ∨ m = 11 then 30 else 31

/-- ISO week number, as produced by `pandas` `isocalendar().week`:
the week of the Thursday of the date's week. -/
def isoWeek (d : Date) : Int :=
  let k := daysFromCivil d
  let thursday := k - (k + 3) % 7 + 3
  let ty := (civilFromDays thursday).year
  let jan1 := daysFromCivil ⟨ty, 1, 1⟩
  (thursday - jan1).fdiv 7 + 1

/-! ## Rounding (`round(x, 2)` and `round(x, 1)`) -/

/-- Python `round(x, 2)` on a rational. -/
def round2 (q : ℚ) : ℚ := (round (q * 100) : ℤ) / 100

/-- Python `round(x, 1)` on a rational. -/
def round1 (q : ℚ) : ℚ := (round (q * 10) : ℤ) / 10

/-! ## The canonical transaction record

The `original_data` mapping is retained for traceability only and is never
interpreted downstream, so it is omitted from the embedding.  The tabular
parser never emits a `balance` key, the free-text adapter always does; the
field is therefore optional. -/

structure Transaction where
  date : Date
  description : String
  amount : ℚ
  type : String
  category : String
  balance : Option ℚ
deriving DecidableEq, Repr

/-! ## Categorizer (`services/categorizer.py`)

Every pattern in the table is a regex-metacharacter-free literal, so
`re.search(pattern, description)` is exactly a substring test on the
lowercased description. -/

/-- `str.lower()` on one character (descriptions and patterns are ASCII). -/
def lowerChar (c : Char) : Char :=
  if 'A' ≤ c ∧ c ≤ 'Z' then Char.ofNat (c.toNat + 32) else c

/-- `str.lower()` (ASCII). -/
def lowerStr (s : String) : List Char := s.toList.map lowerChar

/-- `needle` is an initial segment of `hay`. -/
def leadsWith : List Char → List Char → Bool
  | [], _ => true
  | _ :: _, [] => false
  | a :: as, b :: bs => a == b && leadsWith as bs

/-- `needle` occurs contiguously inside `hay`. -/
def occursInChars (needle : List Char) : List Char → Bool
  | [] => needle.isEmpty
  | c :: rest => leadsWith needle (c :: rest) || occursInChars needle rest

/-- `re.search(pat, s)` for a literal pattern `pat`, the subject already
lowercased to a character list. -/
def occursIn (pat : String) (s : List Char) : Bool := occursInChars pat.toList s

/-- `TransactionCategorizer.category_patterns`, in declaration order
(declaration order is semantically load-bearing: first match wins). -/
def categoryPatterns : List (String × List String) :=
  [ ("Food & Dining",
      ["starbucks", "mcdonald", "subway", "tim hortons", "pizza",
       "restaurant", "cafe", "coffee", "uber eats", "doordash",
       "skip", "food", "dining", "takeout", "delivery"]),
    ("Groceries",
      ["grocery", "supermarket", "metro", "loblaws", "sobeys",
       "walmart", "costco", "fresh", "market", "food basics"]),
    ("Transportation",
      ["gas", "shell", "esso", "petro", "uber", "taxi",
       "bus", "transit", "parking", "car wash", "automotive"]),
    ("Entertainment",
      ["netflix", "spotify", "amazon prime", "disney", "hulu",
       "cinema", "movie", "theatre", "gaming", "steam"]),
    ("Shopping",
      ["amazon", "walmart", "target", "shopping", "store",
       "purchase", "retail", "mall", "clothing", "electronics"]),
    ("Utilities",
      ["hydro", "electric", "gas bill", "water", "internet",
       "phone", "cable", "utility", "heating", "cooling"]),
    ("Healthcare",
      ["pharmacy", "doctor", "medical", "dental", "hospital",
       "clinic", "health", "medicine", "prescription"]),
    ("Banking",
      ["atm", "withdrawal", "bank", "fee", "charge",
       "transfer", "interest", "service charge"]),
    ("Income",
      ["payroll", "salary", "deposit", "income", "wages",
       "pay", "transfer received", "refund"]) ]

/-- The `Income` pattern list. -/
def incomePatterns : List String :=
  ((categoryPatterns.lookup "Income").getD [])

/-- The non-`Income` categories, in declaration order
(the debit loop executes `continue` on `Income`). -/
def nonIncomeCats : List (String × List String) :=
  categoryPatterns.filter (fun cp => cp.1 ≠ "Income")

/-- Some pattern of the category matches the (lowercased) description. -/
def catMatches (desc : List Char) (cp : String × List String) : Bool :=
  cp.2.any (fun p => occursIn p desc)

/-- The label `categorize_transaction` computes before assigning it to the
record's `category` field (the source assigns inside the branches and
returns the record; the computed label is factored out here). -/
def categoryLabel (ttype description : String) : String :=
  let desc := lowerStr description
  if ttype == "Credit" then
    if incomePatterns.any (fun p => occursIn p desc) then "Income" else "Other Income"
  else
    match nonIncomeCats.find? (fun cp => catMatches desc cp) with
    | some cp => cp.1
    | none => "Other"

/-- `TransactionCategorizer.categorize_transaction`: overwrites `category`,
touching no other field. -/
def categorizeTransaction (t : Transaction) : Transaction :=
  { t with category := categoryLabel t.type t.description }

/-- `TransactionCategorizer.categorize_batch` (value-level: the per-record
`.copy()` is identity on immutable values; the heap model below covers the
aliasing aspect). -/
def categorizeBatch (ts : List Transaction) : List Transaction :=
  ts.map categorizeTransaction

example :
    categoryLabel "Debit" "WALMART SUPERCENTER #1234" = "Groceries" := by decide

example : categoryLabel "Debit" "random thing" = "Other" := by decide

example : categoryLabel "Credit" "PAYROLL ACME" = "Income" := by decide

example : categoryLabel "Credit" "mystery inflow" = "Other Income" := by decide

/-! ## Library primitives used by the parsers

`datetime.strptime` and `float()` string coercion are standard-library
primitives (like the opaque language-model extraction call, they are outside
the core under study); the embedding takes them as explicit parameters.
`datetime.now()` is the `now` field. -/

structure Prims where
  /-- `datetime.strptime fmt s`: `some` date on success, `none` when it raises. -/
  strptime : String → String → Option Date
  /-- `float s` on a cleaned numeric string: `none` when it raises. -/
  parseFloat : String → Option ℚ
  /-- `datetime.now()` (its calendar date). -/
  now : Date

/-! ## Tabular normalizer (`services/data_parser.py`)

A cell value is `Option String`: `none` models a `pd.isna` cell.  A row is
the cells selected by the identified column mapping; `amountMode` says
whether the mapping contains an `amount` column (otherwise both `debit` and
`credit` resolved). -/

structure Row where
  dateCell : Option String
  descCell : Option String
  amountCell : Option String
  debitCell : Option String
  creditCell : Option String
deriving Repr

/-- Python `str.strip()` (over the character list, so that proofs can
evaluate it). -/
def trimStr (s : String) : String :=
  String.mk (((s.toList.dropWhile Char.isWhitespace).reverse.dropWhile
    Char.isWhitespace).reverse)

/-- The ordered format list tried by `DataParser._parse_date_flexible`. -/
def dateFormats : List String :=
  ["%Y-%m-%d", "%m/%d/%Y", "%d/%m/%Y", "%m-%d-%Y", "%d-%m-%Y",
   "%Y/%m/%d", "%d %b %Y", "%d %B %Y", "%b %d, %Y", "%B %d, %Y"]

/-- First `some` among the candidates. -/
def firstSome : List (Option Date) → Option Date
  | [] => none
  | some d :: _ => some d
  | none :: rest => firstSome rest

/-- `DataParser._parse_date_flexible`: `none` models the raised exception
(empty cell, or no format matches), which skips the row. -/
def parseDateFlexible (P : Prims) (cell : Option String) : Option Date :=
  match cell with
  | none => none
  | some s =>
    if trimStr s = "" then none
    else firstSome (dateFormats.map (fun fmt => P.strptime fmt (trimStr s)))

/-- `DataParser._parse_description`. -/
def parseDescription (cell : Option String) : Option String :=
  match cell with
  | none => none
  | some s => if trimStr s = "" then none else some (trimStr s)

/-- Currency-symbol and thousands-separator stripping done by
`_parse_amount` / `_parse_amount_optional`. -/
def stripCurrency (s : String) : String :=
  trimStr (String.mk (s.toList.filter (fun c => c ∉ ['$', ',', '€', '£'])))

/-- `DataParser._parse_amount_optional`: `None` for empty or unparsable cells. -/
def parseAmountOptional (P : Prims) (cell : Option String) : Option ℚ :=
  match cell with
  | none => none
  | some s => if trimStr s = "" then none else P.parseFloat (stripCurrency s)

/-- `DataParser._parse_amount`: same computation, but signalling failure by
raising (which skips the row) instead of returning `None`. -/
def parseAmount (P : Prims) (cell : Option String) : Option ℚ :=
  match cell with
  | none => none
  | some s => if trimStr s = "" then none else P.parseFloat (stripCurrency s)

/-- The debit/credit branch of `_parse_row_with_mapping`
(`x is not None and x != 0` is `x.getD 0 ≠ 0`): the debit column is tested
first, the credit column only `elif`; neither nonzero raises (row skipped). -/
def debitCreditAmount (dOpt cOpt : Option ℚ) : Option (ℚ × String) :=
  if dOpt.getD 0 ≠ 0 then some (|dOpt.getD 0|, "Debit")
  else if cOpt.getD 0 ≠ 0 then some (|cOpt.getD 0|, "Credit")
  else none

/-- `DataParser._parse_row_with_mapping`: `none` models a raised exception,
caught by `_parse_dataframe`, which skips the row. -/
def parseRowWithMapping (P : Prims) (amountMode : Bool) (row : Row) :
    Option Transaction := do
  let date ← parseDateFlexible P row.dateCell
  let description ← parseDescription row.descCell
  let (amount, ttype) ←
    if amountMode then do
      let a ← parseAmount P row.amountCell
      -- `trans_type = 'Credit' if amount > 0 else 'Debit'; amount = abs(amount)`
      pure (|a|, if a > 0 then "Credit" else "Debit")
    else
      debitCreditAmount (parseAmountOptional P row.debitCell)
        (parseAmountOptional P row.creditCell)
  pure { date, description, amount, type := ttype,
         category := "Uncategorized", balance := none }

/-! ## Free-text extraction adapter (`services/pdf_parser.py`)

An extracted record as seen by `convert_to_standard_format`: `debit`,
`credit` and `balance` are the results of `float(trans.get(k, 0))` — `none`
models the coercion raising (record skipped by the outer `try`), a missing
key is already `some 0`.  `description` is `none` when the key is missing
(defaulted to `"Unknown"`). -/

structure ExtractedRecord where
  dateStr : String
  description : Option String
  debit : Option ℚ
  credit : Option ℚ
  balance : Option ℚ
deriving Repr

/-- The date computed by `convert_to_standard_format` for one record:
ISO first, then US slash, then the current date. -/
def pdfDate (P : Prims) (s : String) : Date :=
  match P.strptime "%Y-%m-%d" s with
  | some d => d
  | none =>
    match P.strptime "%m/%d/%Y" s with
    | some d => d
    | none => P.now

/-- The per-record body of `PDFParser.convert_to_standard_format`:
`none` models `continue` (skip), whether by the zero-amount test or by a
raised coercion error. -/
def convertRecord (P : Prims) (r : ExtractedRecord) : Option Transaction := do
  let debit ← r.debit
  let credit ← r.credit
  let (amount, ttype) ←
    if debit > 0 then some (-debit, "Debit")       -- negative for expenses
    else if credit > 0 then some (credit, "Credit") -- positive for income
    else none                                       -- skip if no amount
  -- date: try ISO, then US slash, else fall back to the current date
  let date := pdfDate P r.dateStr
  let balance ← r.balance
  pure { date, description := r.description.getD "Unknown", amount,
         type := ttype, category := "Uncategorized", balance := some balance }

/-- `PDFParser.convert_to_standard_format` over a record list. -/
def convertToStandardFormat (P : Prims) (rs : List ExtractedRecord) :
    List Transaction :=
  rs.filterMap (convertRecord P)

/-! ## Analytics engine (`services/analyzer.py`)

`pandas` groupby keys in first-appearance order are produced by
`uniqueKeys`; where `groupby` sorts its keys and the order is observable
(daily spending, sorted month keys) an explicit sort is applied. -/

/-- Group keys of a list, first occurrence first, no duplicates. -/
def uniqueKeys {α : Type} [DecidableEq α] : List α → List α
  | [] => []
  | a :: l => a :: uniqueKeys (l.filter (fun b => b ≠ a))
termination_by l => l.length
decreasing_by
  simp only [List.length_cons]
  exact Nat.lt_succ_of_le (List.length_filter_le _ _)

/-- Stable insertion (ascending by `key`) used to model sorted groupby keys. -/
def insertAscBy {α : Type} (key : α → Int) (a : α) : List α → List α
  | [] => [a]
  | b :: bs => if key a ≤ key b then a :: b :: bs else b :: insertAscBy key a bs

/-- Stable ascending sort by an integer key. -/
def sortAscBy {α : Type} (key : α → Int) (l : List α) : List α :=
  l.foldr (insertAscBy key) []

/-- Mean of a list of rationals (`pandas`/`numpy` `.mean()`); callers guard
against the empty list as the source does. -/
def meanQ (l : List ℚ) : ℚ := l.sum / l.length

/-- Sum of the positive amounts (`df[df['amount'] > 0]['amount'].sum()`). -/
def totalIncomeOf (ts : List Transaction) : ℚ :=
  ((ts.filter (fun t => 0 < t.amount)).map (·.amount)).sum

/-- Absolute sum of the negative amounts
(`abs(df[df['amount'] < 0]['amount'].sum())`). -/
def totalExpensesOf (ts : List Transaction) : ℚ :=
  |((ts.filter (fun t => t.amount < 0)).map (·.amount)).sum|

/-- Earliest transaction date (callers guard the empty case). -/
def minDateOf : List Transaction → Date
  | [] => ⟨1970, 1, 1⟩
  | t :: rest =>
    rest.foldl (fun acc u => if dateKey u.date < dateKey acc then u.date else acc) t.date

/-- Latest transaction date (callers guard the empty case). -/
def maxDateOf : List Transaction → Date
  | [] => ⟨1970, 1, 1⟩
  | t :: rest =>
    rest.foldl (fun acc u => if dateKey acc < dateKey u.date then u.date else acc) t.date

structure SummaryStats where
  totalTransactions : Nat
  totalIncome : ℚ
  totalExpenses : ℚ
  netIncome : ℚ
  averageTransaction : ℚ
  dateStart : Date
  dateEnd : Date
deriving Repr

/-- `DataAnalyzer._get_summary_stats`. -/
def summaryStats (ts : List Transaction) : SummaryStats :=
  let totalIncome := totalIncomeOf ts
  let totalExpenses := totalExpensesOf ts
  { totalTransactions := ts.length,
    totalIncome := round2 totalIncome,
    totalExpenses := round2 totalExpenses,
    netIncome := round2 (totalIncome - totalExpenses),
    averageTransaction := round2 (meanQ (ts.map (·.amount))),
    dateStart := minDateOf ts,
    dateEnd := maxDateOf ts }

/-- One `by_category` value.  The source keys the monetary field
`total_spent` for expense entries and `total_earned` for income entries;
both are the single `total` field here, discriminated by `ctype`. -/
structure CatStats where
  total : ℚ
  txCount : Nat
  avgPerTx : ℚ
  pctOfTotal : ℚ
  ctype : String
deriving DecidableEq, Repr

/-- `expense_by_category[c]`: per-category `.sum().abs()` of the amounts. -/
def catSpent (expenseTxs : List Transaction) (c : String) : ℚ :=
  |((expenseTxs.filter (fun t => t.category = c)).map (·.amount)).sum|

/-- `income_by_category[c]`: per-category `.sum()` of the amounts. -/
def catEarned (incomeTxs : List Transaction) (c : String) : ℚ :=
  ((incomeTxs.filter (fun t => t.category = c)).map (·.amount)).sum

/-- `expenses_df = df[df['amount'] < 0]`. -/
def expenseTxsOf (ts : List Transaction) : List Transaction :=
  ts.filter (fun t => t.amount < 0)

/-- `income_df = df[df['amount'] > 0]`. -/
def incomeTxsOf (ts : List Transaction) : List Transaction :=
  ts.filter (fun t => 0 < t.amount)

/-- The expense group keys (`expense_by_category.index`). -/
def expCatsOf (ts : List Transaction) : List String :=
  uniqueKeys ((expenseTxsOf ts).map (·.category))

/-- The income group keys (`income_by_category.index`). -/
def incCatsOf (ts : List Transaction) : List String :=
  uniqueKeys ((incomeTxsOf ts).map (·.category))

/-- `total_expenses = expense_by_category.sum()`. -/
def totalExpCat (ts : List Transaction) : ℚ :=
  ((expCatsOf ts).map (catSpent (expenseTxsOf ts))).sum

/-- `percentage = (total_spent / total_expenses * 100) if total_expenses > 0
else 0`. -/
def catPct (ts : List Transaction) (c : String) : ℚ :=
  if totalExpCat ts > 0 then catSpent (expenseTxsOf ts) c / totalExpCat ts * 100
  else 0

/-- One expense entry of the `by_category` dict. -/
def expEntryOf (ts : List Transaction) (c : String) : String × CatStats :=
  let spent := catSpent (expenseTxsOf ts) c
  let count := ((expenseTxsOf ts).filter (fun t => t.category = c)).length
  let avg := if count > 0 then spent / (count : ℚ) else 0
  (c, CatStats.mk (round2 spent) count (round2 avg) (round1 (catPct ts c)) "expense")

/-- One income entry of the `by_category` dict (`percentage_of_total` fixed
at 0 — income does not count towards the expense percentage). -/
def incEntryOf (ts : List Transaction) (c : String) : String × CatStats :=
  let earned := catEarned (incomeTxsOf ts) c
  let count := ((incomeTxsOf ts).filter (fun t => t.category = c)).length
  let avg := if count > 0 then earned / (count : ℚ) else 0
  (c, CatStats.mk (round2 earned) count (round2 avg) 0 "income")

/-- `DataAnalyzer._analyze_by_category`.  The result `dict` is modelled as an
association list: expense entries are inserted first, income entries second,
and an income entry for the same key overwrites the expense entry (hence the
filter).  The `pd.isna` guards are no-ops over `ℚ`; `groupby`'s alphabetical
key order only permutes the entries and is immaterial to every claim. -/
def analyzeByCategory (ts : List Transaction) : List (String × CatStats) :=
  ((expCatsOf ts).map (expEntryOf ts)).filter
      (fun e => e.1 ∉ incCatsOf ts)
    ++ (incCatsOf ts).map (incEntryOf ts)

/-- `(year, month)` grouping key (`date.dt.to_period('M')`). -/
def monthKey (d : Date) : Int × Nat := (d.year, d.month)

structure MonthStats where
  totalIncome : ℚ
  totalExpenses : ℚ
  netIncome : ℚ
  txCount : Nat
deriving DecidableEq, Repr

/-- `DataAnalyzer._analyze_by_month` (month keys in appearance order, as
`df['month'].unique()` yields them). -/
def analyzeByMonth (ts : List Transaction) : List ((Int × Nat) × MonthStats) :=
  (uniqueKeys (ts.map (fun t => monthKey t.date))).map (fun mk =>
    let sub := ts.filter (fun t => monthKey t.date = mk)
    let income := totalIncomeOf sub
    let expenses := totalExpensesOf sub
    (mk, MonthStats.mk (round2 income) (round2 expenses)
          (round2 (income - expenses)) sub.length))

structure TrendStats where
  dailyAverage : ℚ
  highestDate : Date
  highestAmount : ℚ
  lowestDate : Date
  lowestAmount : ℚ
  weeklyAverage : ℚ
deriving Repr

/-- First pair attaining the maximal value (`Series.idxmax`; callers pass a
nonempty list). -/
def argmaxQ : List (Date × ℚ) → Date × ℚ
  | [] => (⟨1970, 1, 1⟩, 0)
  | p :: ps => ps.foldl (fun acc q => if acc.2 < q.2 then q else acc) p

/-- First pair attaining the minimal value (`Series.idxmin`). -/
def argminQ : List (Date × ℚ) → Date × ℚ
  | [] => (⟨1970, 1, 1⟩, 0)
  | p :: ps => ps.foldl (fun acc q => if q.2 < acc.2 then q else acc) p

/-- `DataAnalyzer._analyze_spending_trends`: `none` is the `{}` returned for
an expense-free frame.  Daily group keys are sorted ascending as `groupby`
emits them, so `idxmax`/`idxmin` ties resolve to the earliest date. -/
def analyzeSpendingTrends (ts : List Transaction) : Option TrendStats :=
  let expenseTxs := ts.filter (fun t => t.amount < 0)
  if expenseTxs.isEmpty then none
  else
    let days := sortAscBy dateKey (uniqueKeys (expenseTxs.map (·.date)))
    let dailySums : List (Date × ℚ) := days.map (fun d =>
      (d, |((expenseTxs.filter (fun t => t.date = d)).map (·.amount)).sum|))
    let weeks := uniqueKeys (expenseTxs.map (fun t => isoWeek t.date))
    let weeklySums := weeks.map (fun w =>
      |((expenseTxs.filter (fun t => isoWeek t.date = w)).map (·.amount)).sum|)
    let hi := argmaxQ dailySums
    let lo := argminQ dailySums
    some { dailyAverage := round2 (meanQ (dailySums.map (·.2))),
           highestDate := hi.1, highestAmount := round2 hi.2,
           lowestDate := lo.1, lowestAmount := round2 lo.2,
           weeklyAverage := round2 (meanQ weeklySums) }

structure ExpenseEntry where
  date : Date
  description : String
  amount : ℚ
  category : String
deriving DecidableEq, Repr

/-- Stable insertion, descending by amount (ties keep the earlier row). -/
def insertByAmountDesc (t : Transaction) : List Transaction → List Transaction
  | [] => [t]
  | u :: us => if u.amount ≤ t.amount then t :: u :: us else u :: insertByAmountDesc t us

/-- Stable sort, descending by amount: the row order produced by
`nlargest(limit, 'amount', keep='first')` before the `take`. -/
def sortByAmountDesc (l : List Transaction) : List Transaction :=
  l.foldr insertByAmountDesc []

/-- `DataAnalyzer._get_top_expenses` (the source's `limit` parameter defaults
to 10; `analyze_transactions` uses the default). -/
def topExpenses (ts : List Transaction) (limit : Nat) : List ExpenseEntry :=
  let expenseTxs := ts.filter (fun t => t.amount < 0)
  ((sortByAmountDesc expenseTxs).take limit).map (fun t =>
    ExpenseEntry.mk t.date t.description (|round2 t.amount|) t.category)

structure IncomeVsExpenses where
  incomeCount : Nat
  expenseCount : Nat
  avgIncomePerTx : ℚ
  avgExpensePerTx : ℚ
  incomeToExpenseRatio : ℚ
deriving DecidableEq, Repr

/-- `DataAnalyzer._analyze_income_vs_expenses`. -/
def analyzeIncomeVsExpenses (ts : List Transaction) : IncomeVsExpenses :=
  let incomeTxs := ts.filter (fun t => 0 < t.amount)
  let expenseTxs := ts.filter (fun t => t.amount < 0)
  { incomeCount := incomeTxs.length,
    expenseCount := expenseTxs.length,
    avgIncomePerTx :=
      if incomeTxs.isEmpty then 0 else round2 (meanQ (incomeTxs.map (·.amount))),
    avgExpensePerTx :=
      if expenseTxs.isEmpty then 0 else round2 |meanQ (expenseTxs.map (·.amount))|,
    incomeToExpenseRatio :=
      if expenseTxs.isEmpty then 0
      else round2 ((incomeTxs.map (·.amount)).sum / |(expenseTxs.map (·.amount)).sum|) }

structure SpendingPatterns where
  spendingByDay : List (String × ℚ)
  averageDailySpending : Option ℚ
deriving Repr

/-- `DataAnalyzer._analyze_spending_patterns` (`average_daily_spending` is
only present when the date span is positive). -/
def analyzeSpendingPatterns (ts : List Transaction) : SpendingPatterns :=
  let expenseTxs := ts.filter (fun t => t.amount < 0)
  let names := uniqueKeys (expenseTxs.map (fun t => dayName (pyWeekday t.date)))
  let byDay := names.map (fun n =>
    (n, |((expenseTxs.filter (fun t => dayName (pyWeekday t.date) = n)).map
          (·.amount)).sum|))
  let dateRange := dateKey (maxDateOf ts) - dateKey (minDateOf ts)
  { spendingByDay := byDay,
    averageDailySpending :=
      if 0 < dateRange then some (totalExpensesOf ts / (dateRange : ℚ)) else none }

/-! ## Insight generator (`_generate_ai_insights` and its five rule families)

`message` strings interpolate formatted numbers and are omitted; `type`,
`severity`, `title`, `amount` and `recommendation` are retained. -/

structure Insight where
  itype : String
  severity : String
  title : String
  amount : ℚ
  recommendation : String
deriving Repr

/-- Sorting key for month keys: `sorted()` over the `str(Period)` keys
`"YYYY-MM"` is, for four-digit years, the lexicographic order on
`(year, month)`, i.e. the order of `year * 100 + month`. -/
def monthSortKey (mk : Int × Nat) : Int := mk.1 * 100 + mk.2

/-- `DataAnalyzer._detect_spending_anomalies`. -/
def detectSpendingAnomalies (byMonth : List ((Int × Nat) × MonthStats))
    (byCat : List (String × CatStats)) : List Insight :=
  let monthly :=
    if byMonth.length ≥ 2 then
      let months := sortAscBy monthSortKey (byMonth.map (·.1))
      let currentMonth := (months.drop (months.length - 1)).headD (0, 0)
      let previousMonths :=
        if months.length ≥ 3 then (months.drop (months.length - 3)).take 2
        else months.take (months.length - 1)
      let statsOf := fun mk => ((byMonth.lookup mk).getD (MonthStats.mk 0 0 0 0))
      let currentSpending := |(statsOf currentMonth).totalExpenses|
      let avgPreviousSpending :=
        meanQ (previousMonths.map (fun mk => |(statsOf mk).totalExpenses|))
      if avgPreviousSpending > 0 then
        let changePercent :=
          (currentSpending - avgPreviousSpending) / avgPreviousSpending * 100
        if changePercent > 25 then
          [⟨"spending_spike", if changePercent > 50 then "high" else "medium",
            "Unusual Spending Detected", currentSpending - avgPreviousSpending,
            "Review your recent transactions to identify the cause of increased spending."⟩]
        else if changePercent < -25 then
          [⟨"spending_decrease", "positive", "Great Spending Control!",
            avgPreviousSpending - currentSpending,
            "Consider putting the saved money into your emergency fund or investments."⟩]
        else []
      else []
    else []
  let dominance := byCat.filterMap (fun e =>
    if e.2.pctOfTotal > 40 then
      some ⟨"category_dominance", "medium", "High " ++ e.1 ++ " Spending",
            e.2.total,
            "Consider ways to reduce " ++ e.1 ++
              " expenses or create a specific budget for this category."⟩
    else none)
  monthly ++ dominance

/-- `DataAnalyzer._predict_budget_risks` (`datetime.now()` is `now`). -/
def predictBudgetRisks (now : Date) (ts : List Transaction)
    (byMonth : List ((Int × Nat) × MonthStats)) : List Insight :=
  let firstOfMonth : Date := ⟨now.year, now.month, 1⟩
  let currentMonthData := ts.filter (fun t => dateKey firstOfMonth ≤ dateKey t.date)
  if currentMonthData.length > 0 then
    let daysElapsed := dateKey now - dateKey firstOfMonth
    let dim : Int := daysInMonth now.year now.month
    if 0 < daysElapsed ∧ daysElapsed < dim then
      let currentSpending := totalExpensesOf currentMonthData
      let projectedSpending := currentSpending / (daysElapsed : ℚ) * (dim : ℚ)
      if byMonth.length ≥ 2 then
        let avgMonthlySpending := meanQ (byMonth.map (fun e => |e.2.totalExpenses|))
        if projectedSpending > avgMonthlySpending * (12 / 10) then
          [⟨"budget_risk", "high", "Budget Overrun Risk",
            projectedSpending - avgMonthlySpending,
            "Consider reducing discretionary spending for the remainder of the month."⟩]
        else []
      else []
    else []
  else []

/-- `DataAnalyzer._identify_savings_opportunities`. -/
def identifySavingsOpportunities (ts : List Transaction) : List Insight :=
  let smallTxs := ts.filter (fun t => t.amount < 0 ∧ -20 < t.amount)
  (uniqueKeys (smallTxs.map (·.category))).filterMap (fun c =>
    let g := smallTxs.filter (fun t => t.category = c)
    let totalSpent := |(g.map (·.amount)).sum|
    if g.length ≥ 5 ∧ 50 ≤ totalSpent then
      some ⟨"savings_opportunity", "medium",
            "Small " ++ c ++ " Purchases Add Up", totalSpent,
            "Consider bulk purchasing or setting a weekly limit for " ++ c ++
              " expenses."⟩
    else none)

/-- `DataAnalyzer._analyze_spending_habits`. -/
def analyzeSpendingHabits (ts : List Transaction) : List Insight :=
  let weekendSpending :=
    |((ts.filter (fun t => t.amount < 0 ∧ 5 ≤ pyWeekday t.date)).map (·.amount)).sum|
  let weekdaySpending :=
    |((ts.filter (fun t => t.amount < 0 ∧ ¬ 5 ≤ pyWeekday t.date)).map (·.amount)).sum|
  if 0 < weekendSpending ∧ 0 < weekdaySpending then
    let weekendRatio := weekendSpending / (weekendSpending + weekdaySpending)
    if weekendRatio > 4 / 10 then
      [⟨"spending_pattern", "info", "Weekend Spending Pattern", weekendSpending,
        "Consider setting a weekend spending limit to better control your budget."⟩]
    else []
  else []

/-- `DataAnalyzer._assess_financial_health`: reads the (rounded) summary
totals; at most one insight, and only when income is strictly positive. -/
def assessFinancialHealth (totalIncome totalExpenses0 : ℚ) : List Insight :=
  let totalExpenses := |totalExpenses0|
  if totalIncome > 0 then
    let savingsRate := (totalIncome - totalExpenses) / totalIncome
    if savingsRate < 0 then
      [⟨"financial_health", "high", "Spending Exceeds Income",
        totalExpenses - totalIncome,
        "Immediate action needed: reduce expenses or increase income to avoid debt."⟩]
    else if savingsRate < 1 / 10 then
      [⟨"financial_health", "medium", "Low Savings Rate",
        totalIncome * (2 / 10) - (totalIncome - totalExpenses),
        "Financial experts recommend saving at least 20% of income. Consider reducing expenses."⟩]
    else if savingsRate ≥ 2 / 10 then
      [⟨"financial_health", "positive", "Excellent Savings Rate!",
        totalIncome - totalExpenses,
        "Great job! Consider investing your savings for long-term growth."⟩]
    else []
  else []

structure AnalysisResult where
  summary : SummaryStats
  byCategory : List (String × CatStats)
  byMonth : List ((Int × Nat) × MonthStats)
  spendingTrends : Option TrendStats
  topExpenses : List ExpenseEntry
  incomeVsExpenses : IncomeVsExpenses
  spendingPatterns : SpendingPatterns
  aiInsights : List Insight
deriving Repr

/-- `DataAnalyzer._generate_ai_insights`: the five rule families appended
in fixed order. -/
def generateAiInsights (now : Date) (ts : List Transaction)
    (summary : SummaryStats) (byCat : List (String × CatStats))
    (byM : List ((Int × Nat) × MonthStats)) : List Insight :=
  detectSpendingAnomalies byM byCat
    ++ predictBudgetRisks now ts byM
    ++ identifySavingsOpportunities ts
    ++ analyzeSpendingHabits ts
    ++ assessFinancialHealth summary.totalIncome summary.totalExpenses

/-- `DataAnalyzer.analyze_transactions`: `none` models the empty `dict`
returned for an empty input (no keys, hence also no insights); otherwise a
complete result is built. -/
def analyzeTransactions (now : Date) (ts : List Transaction) :
    Option AnalysisResult :=
  if ts.isEmpty then none
  else
    let summary := summaryStats ts
    let byCat := analyzeByCategory ts
    let byM := analyzeByMonth ts
    some { summary, byCategory := byCat, byMonth := byM,
           spendingTrends := analyzeSpendingTrends ts,
           topExpenses := topExpenses ts 10,
           incomeVsExpenses := analyzeIncomeVsExpenses ts,
           spendingPatterns := analyzeSpendingPatterns ts,
           aiInsights := generateAiInsights now ts summary byCat byM }

/-! ## Heap model of `categorize_batch`

Python records are mutable dictionaries; to settle the aliasing/framing
claim, `categorize_batch` is re-run over an explicit store.  Addresses below
`next` are allocated; `alloc` models `transaction.copy()` creating a new
object, `write` models the in-place `transaction['category'] = ...`
assignment done by `categorize_transaction` on that copy. -/

structure Heap where
  mem : Nat → Transaction
  next : Nat

/-- Allocate a fresh record holding `t`; returns the heap and the new
address. -/
def Heap.alloc (h : Heap) (t : Transaction) : Heap × Nat :=
  ({ mem := fun x => if x = h.next then t else h.mem x, next := h.next + 1 }, h.next)

/-- Overwrite the record at address `a`. -/
def Heap.write (h : Heap) (a : Nat) (t : Transaction) : Heap :=
  { h with mem := fun x => if x = a then t else h.mem x }

/-- `categorize_batch` over the store:
`[self.categorize_transaction(transaction.copy()) for transaction in ts]` —
per input address, allocate a copy, then categorize it in place. -/
def categorizeBatchH (h : Heap) : List Nat → Heap × List Nat
  | [] => (h, [])
  | a :: rest =>
    let allocated := h.alloc (h.mem a)
    let h2 := allocated.1.write allocated.2
      (categorizeTransaction (allocated.1.mem allocated.2))
    let step := categorizeBatchH h2 rest
    (step.1, allocated.2 :: step.2)

/-- Frame lemma for the store-level batch: the allocation watermark only
grows, records below the initial watermark are untouched, every output
address is fresh, and the output records are exactly the categorized copies
of the input records. -/
theorem categorizeBatchH_spec : ∀ (addrs : List Nat) (h : Heap),
    (∀ a ∈ addrs, a < h.next) →
    h.next ≤ (categorizeBatchH h addrs).1.next
    ∧ (∀ x, x < h.next → (categorizeBatchH h addrs).1.mem x = h.mem x)
    ∧ (∀ b ∈ (categorizeBatchH h addrs).2, h.next ≤ b)
    ∧ ((categorizeBatchH h addrs).2.map (categorizeBatchH h addrs).1.mem
        = (addrs.map h.mem).map categorizeTransaction) := by
  intro addrs
  induction addrs with
  | nil =>
    intro h _
    exact ⟨le_refl _, fun x _ => rfl, by simp [categorizeBatchH], by simp [categorizeBatchH]⟩
  | cons a rest ih =>
    intro h hb
    have ha : a < h.next := hb a (List.mem_cons_self a rest)
    -- the heap after copying and categorizing the head record
    set h2 : Heap := (h.alloc (h.mem a)).1.write (h.alloc (h.mem a)).2
      (categorizeTransaction ((h.alloc (h.mem a)).1.mem (h.alloc (h.mem a)).2)) with hh2
    have h2next : h2.next = h.next + 1 := rfl
    have h2mem_lt : ∀ x, x < h.next → h2.mem x = h.mem x := by
      intro x hx
      show (if x = h.next then _ else if x = h.next then _ else h.mem x) = h.mem x
      rw [if_neg (Nat.ne_of_lt hx), if_neg (Nat.ne_of_lt hx)]
    have h2mem_at : h2.mem h.next = categorizeTransaction (h.mem a) := by
      show (if h.next = h.next then
              categorizeTransaction (if h.next = h.next then h.mem a else h.mem h.next)
            else _) = _
      rw [if_pos rfl, if_pos rfl]
    have hrest : ∀ b ∈ rest, b < h2.next := by
      intro b hmem
      rw [h2next]
      exact Nat.lt_succ_of_lt (hb b (List.mem_cons_of_mem a hmem))
    obtain ⟨ihnext, ihmem, ihout, ihvals⟩ := ih h2 hrest
    have hunfold :
        categorizeBatchH h (a :: rest)
          = ((categorizeBatchH h2 rest).1, h.next :: (categorizeBatchH h2 rest).2) := rfl
    refine ⟨?_, ?_, ?_, ?_⟩
    · rw [hunfold]
      exact le_trans (by omega) ihnext
    · intro x hx
      rw [hunfold]
      have := ihmem x (by omega)
      rw [this, h2mem_lt x hx]
    · intro b hmem
      rw [hunfold] at hmem
      rcases List.mem_cons.mp hmem with rfl | hmem
      · exact le_refl _
      · exact le_trans (by omega) (ihout b hmem)
    · rw [hunfold]
      simp only [List.map_cons]
      congr 1
      · rw [ihmem h.next (by omega), h2mem_at]
      · rw [ihvals]
        congr 1
        exact List.map_congr_left (fun b hmem =>
          h2mem_lt b (hb b (List.mem_cons_of_mem a hmem)))

/-! ## Sample data used by witnesses -/

def egNow : Date := ⟨2024, 6, 15⟩

def egTx : Transaction :=
  ⟨⟨2024, 1, 5⟩, "COFFEE SHOP", -(5 : ℚ), "Debit", "Uncategorized", none⟩

def egHeap : Heap := ⟨fun _ => egTx, 1⟩

/-! ## Claims -/

/-- C8: categorization is total and idempotent.  `categorize_batch` is a
total function of the input records (no per-record failure is possible: it
reads `description` and `type` and overwrites `category`), re-running it on
its own output yields the very same records, and the assigned label is
independent of any category already carried by the input. -/
theorem claim_C8 :
    (∀ ts : List Transaction, categorizeBatch (categorizeBatch ts) = categorizeBatch ts)
    ∧ (∀ (t : Transaction) (c : String),
        categorizeTransaction { t with category := c } = categorizeTransaction t) := by
  have hidem : ∀ t : Transaction,
      categorizeTransaction (categorizeTransaction t) = categorizeTransaction t := by
    intro t; cases t; rfl
  constructor
  · intro ts
    induction ts with
    | nil => rfl
    | cons t rest ih =>
      simp only [categorizeBatch, List.map_cons, List.map_map] at ih ⊢
      rw [hidem t]
      exact congrArg _ ih
  · intro t c; cases t; rfl

/-- C7: the analytics engine returns the empty structure (and hence no
insights) on an empty transaction list, without failing, and produces a
complete `AnalysisResult` — every component populated — for every non-empty
input. -/
theorem claim_C7 :
    (∀ now : Date, analyzeTransactions now [] = none)
    ∧ (∀ (now : Date) (ts : List Transaction), ts ≠ [] →
        ∃ r : AnalysisResult, analyzeTransactions now ts = some r) := by
  constructor
  · intro _; rfl
  · intro now ts h
    unfold analyzeTransactions
    rw [if_neg (by simpa using h)]
    exact ⟨_, rfl⟩

/-- Witness for C7 at a concrete non-empty input. -/
theorem claim_C7_witness :
    analyzeTransactions egNow [] = none
    ∧ ∃ r : AnalysisResult, analyzeTransactions egNow [egTx] = some r :=
  ⟨claim_C7.1 egNow, claim_C7.2 egNow [egTx] (by simp)⟩

/-- C10: store-level framing of `categorize_batch` — for allocated input
records, every input record (its category included) is left unchanged, and
no output record is the same object as an input record. -/
theorem claim_C10 : ∀ (h : Heap) (addrs : List Nat),
    (∀ a ∈ addrs, a < h.next) →
    (∀ a ∈ addrs, (categorizeBatchH h addrs).1.mem a = h.mem a)
    ∧ (∀ b ∈ (categorizeBatchH h addrs).2, b ∉ addrs) := by
  intro h addrs hb
  obtain ⟨-, hmem, hout, -⟩ := categorizeBatchH_spec addrs h hb
  refine ⟨fun a ha => hmem a (hb a ha), fun b hbmem hmem' => ?_⟩
  exact absurd (hout b hbmem) (not_le.mpr (hb b hmem'))

/-- Witness for C10 at a concrete one-record heap. -/
theorem claim_C10_witness :
    ((categorizeBatchH egHeap [0]).1.mem 0 = egHeap.mem 0)
    ∧ (∀ b ∈ (categorizeBatchH egHeap [0]).2, b ∉ [0]) := by
  have h := claim_C10 egHeap [0] (by intro a ha; simp at ha; simp [ha, egHeap])
  exact ⟨h.1 0 (by simp), h.2⟩

/-- C6: the financial-health rule emits at most one insight, none unless
total income is strictly positive, and, writing `r` for the savings rate
`(income − expenses) / income`: severity `"high"` when `r < 0`, `"medium"`
when `0 ≤ r < 1/10`, `"positive"` when `2/10 ≤ r`, and no insight when
`1/10 ≤ r < 2/10`. -/
theorem claim_C6 : ∀ income expenses : ℚ,
    (assessFinancialHealth income expenses).length ≤ 1
    ∧ (¬ 0 < income → assessFinancialHealth income expenses = [])
    ∧ (0 < income →
        ((income - |expenses|) / income < 0 →
          (assessFinancialHealth income expenses).map (·.severity) = ["high"])
        ∧ (0 ≤ (income - |expenses|) / income →
            (income - |expenses|) / income < 1 / 10 →
          (assessFinancialHealth income expenses).map (·.severity) = ["medium"])
        ∧ (2 / 10 ≤ (income - |expenses|) / income →
          (assessFinancialHealth income expenses).map (·.severity) = ["positive"])
        ∧ (1 / 10 ≤ (income - |expenses|) / income →
            (income - |expenses|) / income < 2 / 10 →
          assessFinancialHealth income expenses = [])) := by
  intro i e
  dsimp only [assessFinancialHealth]
  split_ifs with h1 h2 h3 h4 <;> simp_all <;>
    (repeat' apply And.intro) <;> (intros; linarith)

/-- Witness for C6 at the spec's three sample points
(1000/1200 overspend, 1000/950 low savings, 1000/750 positive). -/
theorem claim_C6_witness :
    (assessFinancialHealth 1000 1200).map (·.severity) = ["high"]
    ∧ (assessFinancialHealth 1000 950).map (·.severity) = ["medium"]
    ∧ (assessFinancialHealth 1000 750).map (·.severity) = ["positive"] := by
  refine ⟨?_, ?_, ?_⟩
  · exact ((claim_C6 1000 1200).2.2 (by norm_num)).1 (by with_unfolding_all decide)
  · exact (((claim_C6 1000 950).2.2 (by norm_num)).2.1
      (by with_unfolding_all decide) (by with_unfolding_all decide))
  · exact (((claim_C6 1000 750).2.2 (by norm_num)).2.2.1
      (by with_unfolding_all decide))

/-! ## Parser claims -/

/-- Concrete primitives: `strptime` recognises one ISO date, `float()`
recognises a handful of numeric strings. -/
def P0 : Prims where
  strptime := fun fmt s =>
    if fmt = "%Y-%m-%d" && s = "2024-01-05" then some ⟨2024, 1, 5⟩ else none
  parseFloat := fun s =>
    if s = "-50" then some (-50)
    else if s = "30" then some 30
    else if s = "5" then some 5
    else if s = "7" then some 7
    else if s = "0" then some 0
    else none
  now := ⟨2024, 6, 1⟩

/-- Primitives on which every parse fails. -/
def Pnone : Prims := ⟨fun _ _ => none, fun _ => none, ⟨2024, 6, 1⟩⟩

set_option maxRecDepth 8000 in
/-- C1 (codebase defect): the tabular normalizer stores `abs(amount)` —
a row carrying `-50` in its amount column, and likewise a row with `30` in
its debit column, both yield a `Debit` transaction whose stored amount is
*positive*, contradicting the sign convention (`negative = outflow`) that
the free-text adapter and the analyzer's expense detection
(`amount < 0`) rely on. -/
theorem claim_C1_code_eval :
    (parseRowWithMapping P0 true
        ⟨some "2024-01-05", some "COFFEE SHOP", some "-50", none, none⟩
      = some ⟨⟨2024, 1, 5⟩, "COFFEE SHOP", 50, "Debit", "Uncategorized", none⟩)
    ∧ (parseRowWithMapping P0 false
        ⟨some "2024-01-05", some "ATM WITHDRAWAL", none, some "30", some "0"⟩
      = some ⟨⟨2024, 1, 5⟩, "ATM WITHDRAWAL", 30, "Debit", "Uncategorized", none⟩)
    ∧ (0 : ℚ) < 50 := by
  refine ⟨?_, ?_, by norm_num⟩ <;> with_unfolding_all decide

/-- C3, counterexample: a row (and a free-text record) in which *both* the
debit and the credit value are nonzero is *not* skipped — both normalizers
convert it, taking the debit side. -/
theorem claim_C3_counterexample :
    (parseRowWithMapping P0 false
        ⟨some "2024-01-05", some "SOME STORE", none, some "5", some "7"⟩).isSome = true
    ∧ (convertRecord P0
        ⟨"2024-01-05", some "SOME STORE", some 5, some 7, some 0⟩).isSome = true := by
  constructor <;> with_unfolding_all decide

/-- C3 (amended): a row/record is converted when at least one side
qualifies (tabular: parses to a nonzero number; free-text: is strictly
positive); when both qualify the debit side takes precedence and the record
becomes a Debit; it is skipped only when neither side qualifies. -/
theorem claim_C3_amended :
    (∀ (P : Prims) (row : Row) (dt : Date) (ds : String),
      parseDateFlexible P row.dateCell = some dt →
      parseDescription row.descCell = some ds →
      (parseRowWithMapping P false row = none ↔
        ((parseAmountOptional P row.debitCell).getD 0 = 0
          ∧ (parseAmountOptional P row.creditCell).getD 0 = 0))
      ∧ ((parseAmountOptional P row.debitCell).getD 0 ≠ 0 →
          parseRowWithMapping P false row = some
            ⟨dt, ds, |(parseAmountOptional P row.debitCell).getD 0|, "Debit",
             "Uncategorized", none⟩)
      ∧ ((parseAmountOptional P row.debitCell).getD 0 = 0 →
          (parseAmountOptional P row.creditCell).getD 0 ≠ 0 →
          parseRowWithMapping P false row = some
            ⟨dt, ds, |(parseAmountOptional P row.creditCell).getD 0|, "Credit",
             "Uncategorized", none⟩))
    ∧ (∀ (P : Prims) (r : ExtractedRecord) (d c b : ℚ),
      r.debit = some d → r.credit = some c → r.balance = some b →
      ((convertRecord P r = none) ↔ (¬ 0 < d ∧ ¬ 0 < c))
      ∧ (0 < d → convertRecord P r = some
          ⟨pdfDate P r.dateStr, r.description.getD "Unknown", -d, "Debit",
           "Uncategorized", some b⟩)
      ∧ (¬ 0 < d → 0 < c → convertRecord P r = some
          ⟨pdfDate P r.dateStr, r.description.getD "Unknown", c, "Credit",
           "Uncategorized", some b⟩)) := by
  constructor
  · intro P row dt ds hd hds
    by_cases h1 : (parseAmountOptional P row.debitCell).getD 0 = 0 <;>
      by_cases h2 : (parseAmountOptional P row.creditCell).getD 0 = 0 <;>
        simp [parseRowWithMapping, hd, hds, debitCreditAmount, h1, h2]
  · intro P r d c b hd hc hb
    by_cases h1 : 0 < d <;> by_cases h2 : 0 < c <;>
      simp [convertRecord, hd, hc, hb, h1, h2]

set_option maxRecDepth 8000 in
/-- Witness for the amended C3 at the both-nonzero input: the debit side
wins in both normalizers. -/
theorem claim_C3_amended_witness :
    parseRowWithMapping P0 false
        ⟨some "2024-01-05", some "SOME STORE", none, some "5", some "7"⟩
      = some ⟨⟨2024, 1, 5⟩, "SOME STORE", 5, "Debit", "Uncategorized", none⟩
    ∧ convertRecord P0 ⟨"2024-01-05", some "SOME STORE", some 5, some 7, some 0⟩
      = some ⟨⟨2024, 1, 5⟩, "SOME STORE", -5, "Debit", "Uncategorized", some 0⟩ := by
  constructor
  · have h := (claim_C3_amended.1 P0
      ⟨some "2024-01-05", some "SOME STORE", none, some "5", some "7"⟩
      ⟨2024, 1, 5⟩ "SOME STORE"
      (by with_unfolding_all decide) (by with_unfolding_all decide)).2.1
      (by with_unfolding_all decide)
    rw [h]
    with_unfolding_all decide
  · have h := (claim_C3_amended.2 P0
      ⟨"2024-01-05", some "SOME STORE", some 5, some 7, some 0⟩
      5 7 0 rfl rfl rfl).2.1 (by norm_num)
    rw [h]
    with_unfolding_all decide

/-- All-`none` candidates yield `none` from `firstSome`. -/
theorem firstSome_none (l : List (Option Date)) :
    (∀ o ∈ l, o = none) → firstSome l = none := by
  induction l with
  | nil => intro _; rfl
  | cons o rest ih =>
    intro h
    have ho := h o (List.mem_cons_self o rest)
    subst ho
    exact ih (fun o' ho' => h o' (List.mem_cons_of_mem _ ho'))

/-- C9: a free-text record whose date string parses with neither the ISO
nor the US slash format is still converted, its date falling back to the
current date; on the tabular path a date cell that no format parses makes
the row be skipped. -/
theorem claim_C9 :
    (∀ (P : Prims) (r : ExtractedRecord) (d c b : ℚ),
      P.strptime "%Y-%m-%d" r.dateStr = none →
      P.strptime "%m/%d/%Y" r.dateStr = none →
      r.debit = some d → 0 < d → r.credit = some c → r.balance = some b →
      convertRecord P r = some
        ⟨P.now, r.description.getD "Unknown", -d, "Debit", "Uncategorized", some b⟩)
    ∧ (∀ (P : Prims) (amountMode : Bool) (row : Row) (s : String),
      row.dateCell = some s →
      (∀ fmt ∈ dateFormats, P.strptime fmt (trimStr s) = none) →
      parseRowWithMapping P amountMode row = none) := by
  constructor
  · intro P r d c b hiso hus hd hpos hc hb
    simp [convertRecord, hd, hc, hb, hpos, pdfDate, hiso, hus]
  · intro P amountMode row s hcell hall
    have hdate : parseDateFlexible P row.dateCell = none := by
      rw [hcell]
      unfold parseDateFlexible
      dsimp only
      split_ifs with h
      · rfl
      · apply firstSome_none
        intro o ho
        obtain ⟨fmt, hfmt, rfl⟩ := List.mem_map.mp ho
        exact hall fmt hfmt
    simp [parseRowWithMapping, hdate]

/-- Witness for C9: with primitives on which every parse fails, the
free-text record survives with the current date while the tabular row is
dropped. -/
theorem claim_C9_witness :
    convertRecord Pnone ⟨"garbage", some "THING", some 5, some 0, some 0⟩
      = some ⟨⟨2024, 6, 1⟩, "THING", -5, "Debit", "Uncategorized", some 0⟩
    ∧ parseRowWithMapping Pnone true
        ⟨some "garbage", some "THING", some "5", none, none⟩ = none := by
  constructor
  · have h := claim_C9.1 Pnone ⟨"garbage", some "THING", some 5, some 0, some 0⟩
      5 0 0 rfl rfl rfl (by norm_num) rfl rfl
    rw [h]
    rfl
  · exact claim_C9.2 Pnone true _ "garbage" rfl (fun fmt _ => rfl)

/-! ## Categorizer claims -/

/-- `find?` returns the element at the least satisfying index. -/
theorem find?_eq_of_first {A : Type} (p : A → Bool) :
    ∀ (l : List A) (k : Nat) (hk : k < l.length),
      p (l.get ⟨k, hk⟩) = true →
      (∀ (j : Nat) (hj : j < k), p (l.get ⟨j, Nat.lt_trans hj hk⟩) = false) →
      l.find? p = some (l.get ⟨k, hk⟩) := by
  intro l
  induction l with
  | nil => intro k hk; exact absurd hk (by simp)
  | cons a rest ih =>
    intro k hk hpk hprev
    cases k with
    | zero =>
      rw [List.find?_cons_of_pos _ (by simpa using hpk)]
      rfl
    | succ k0 =>
      have hpa : p a = false := hprev 0 (Nat.succ_pos k0)
      rw [List.find?_cons_of_neg _ (by simp [hpa])]
      exact ih k0 (Nat.lt_of_succ_lt_succ hk) hpk
        (fun j hj => hprev (j + 1) (Nat.succ_lt_succ hj))

/-- C4: the categorizer assigns exactly one label.  A Credit record is
tested only against the Income patterns: any match yields `"Income"`, none
yields `"Other Income"`.  A Debit record gets the first non-Income category,
in declaration order, one of whose patterns matches the lowercased
description, and `"Other"` when none matches — so a description matching
two categories always receives the earlier-declared one. -/
theorem claim_C4 : ∀ t : Transaction,
    (t.type = "Credit" →
      ((∃ p ∈ incomePatterns, occursIn p (lowerStr t.description) = true) →
        (categorizeTransaction t).category = "Income")
      ∧ ((∀ p ∈ incomePatterns, occursIn p (lowerStr t.description) = false) →
        (categorizeTransaction t).category = "Other Income"))
    ∧ (t.type = "Debit" →
      ((∀ cp ∈ nonIncomeCats, catMatches (lowerStr t.description) cp = false) →
        (categorizeTransaction t).category = "Other")
      ∧ (∀ (k : Nat) (hk : k < nonIncomeCats.length),
          catMatches (lowerStr t.description) (nonIncomeCats.get ⟨k, hk⟩) = true →
          (∀ (j : Nat) (hj : j < k),
            catMatches (lowerStr t.description)
              (nonIncomeCats.get ⟨j, Nat.lt_trans hj hk⟩) = false) →
          (categorizeTransaction t).category = (nonIncomeCats.get ⟨k, hk⟩).1)) := by
  intro t
  constructor
  · intro hc
    have hbeq : (t.type == "Credit") = true := by rw [hc]; rfl
    constructor
    · rintro ⟨p, hp, hocc⟩
      simp only [categorizeTransaction, categoryLabel, hbeq, if_true]
      rw [if_pos (List.any_eq_true.mpr ⟨p, hp, hocc⟩)]
    · intro hall
      simp only [categorizeTransaction, categoryLabel, hbeq, if_true]
      rw [if_neg]
      intro hany
      obtain ⟨p, hp, hocc⟩ := List.any_eq_true.mp hany
      rw [hall p hp] at hocc
      exact Bool.false_ne_true hocc
  · intro hd
    have hbeq : (t.type == "Credit") = false := by rw [hd]; rfl
    constructor
    · intro hall
      simp only [categorizeTransaction, categoryLabel, hbeq, Bool.false_eq_true,
        if_false]
      rw [List.find?_eq_none.mpr (fun cp hcp => by simp [hall cp hcp])]
    · intro k hk hmatch hprev
      simp only [categorizeTransaction, categoryLabel, hbeq, Bool.false_eq_true,
        if_false]
      rw [find?_eq_of_first _ nonIncomeCats k hk hmatch hprev]

/-- Witness for C4: `"WALMART STORE #99"` matches both `Groceries`
(declared 2nd) and `Shopping` (declared 5th) and receives the earlier
`Groceries`; a payroll Credit receives `Income`. -/
theorem claim_C4_witness :
    (categorizeTransaction
        ⟨⟨2024, 1, 2⟩, "WALMART STORE #99", -25, "Debit", "Uncategorized", none⟩).category
      = "Groceries"
    ∧ (categorizeTransaction
        ⟨⟨2024, 1, 3⟩, "PAYROLL ACME CORP", 2000, "Credit", "Uncategorized", none⟩).category
      = "Income" := by
  constructor
  · have h := ((claim_C4
      ⟨⟨2024, 1, 2⟩, "WALMART STORE #99", -25, "Debit", "Uncategorized", none⟩).2
      rfl).2 1 (by decide) (by decide)
      (fun j hj => by
        have hj0 : j = 0 := by omega
        subst hj0
        show catMatches (lowerStr "WALMART STORE #99")
          (nonIncomeCats.get ⟨0, by decide⟩) = false
        decide)
    rw [h]
    decide
  · exact ((claim_C4
      ⟨⟨2024, 1, 3⟩, "PAYROLL ACME CORP", 2000, "Credit", "Uncategorized", none⟩).1
      rfl).1 ⟨"payroll", by decide, by decide⟩

/-! ## Top-expenses claim -/

/-- Eleven outflows of magnitudes 1 … 11 (other fields constant). -/
def egC2 : List Transaction :=
  [⟨⟨2024, 1, 1⟩, "e1", -1, "Debit", "Other", none⟩,
   ⟨⟨2024, 1, 2⟩, "e2", -2, "Debit", "Other", none⟩,
   ⟨⟨2024, 1, 3⟩, "e3", -3, "Debit", "Other", none⟩,
   ⟨⟨2024, 1, 4⟩, "e4", -4, "Debit", "Other", none⟩,
   ⟨⟨2024, 1, 5⟩, "e5", -5, "Debit", "Other", none⟩,
   ⟨⟨2024, 1, 6⟩, "e6", -6, "Debit", "Other", none⟩,
   ⟨⟨2024, 1, 7⟩, "e7", -7, "Debit", "Other", none⟩,
   ⟨⟨2024, 1, 8⟩, "e8", -8, "Debit", "Other", none⟩,
   ⟨⟨2024, 1, 9⟩, "e9", -9, "Debit", "Other", none⟩,
   ⟨⟨2024, 1, 10⟩, "e10", -10, "Debit", "Other", none⟩,
   ⟨⟨2024, 1, 11⟩, "e11", -11, "Debit", "Other", none⟩]

set_option maxRecDepth 20000 in
/-- C2 (codebase defect): `nlargest` over the *signed* negative amounts
selects the outflows closest to zero.  On eleven outflows of magnitudes
1 … 11, `top_expenses` reports magnitudes 1 … 10 — ascending, and the
largest outflow (magnitude 11, present in the input) is excluded — instead
of the ten largest magnitudes in descending order. -/
theorem claim_C2_code_eval :
    ((topExpenses egC2 10).map (·.amount)
      = [1, 2, 3, 4, 5, 6, 7, 8, 9, 10])
    ∧ ((11 : ℚ) ∉ (topExpenses egC2 10).map (·.amount))
    ∧ (⟨⟨2024, 1, 11⟩, "e11", -11, "Debit", "Other", none⟩ ∈ egC2) := by
  refine ⟨?_, ?_, ?_⟩ <;> with_unfolding_all decide

/-! ## By-category percentage claim -/

/-- Membership in the group keys is membership in the keyed list. -/
theorem mem_uniqueKeys {A : Type} [DecidableEq A] (a : A) :
    ∀ l : List A, a ∈ uniqueKeys l ↔ a ∈ l := by
  intro l
  induction l using uniqueKeys.induct with
  | case1 => simp [uniqueKeys]
  | case2 b rest ih =>
    rw [uniqueKeys]
    constructor
    · intro h
      rcases List.mem_cons.mp h with rfl | h2
      · exact List.mem_cons_self _ _
      · exact List.mem_cons_of_mem _ (List.mem_filter.mp (ih.mp h2)).1
    · intro h
      rcases List.mem_cons.mp h with rfl | h2
      · exact List.mem_cons_self _ _
      · by_cases hab : a = b
        · subst hab; exact List.mem_cons_self _ _
        · exact List.mem_cons_of_mem _
            (ih.mpr (List.mem_filter.mpr ⟨h2, by simp [hab]⟩))

/-- Summing `f c / T * 100` over keys factors through the sum of `f`. -/
theorem sum_map_pct (K : List String) (f : String → ℚ) (T : ℚ) :
    (K.map (fun c => f c / T * 100)).sum = (K.map f).sum / T * 100 := by
  induction K with
  | nil => simp
  | cons c rest ih =>
    simp only [List.map_cons, List.sum_cons, ih]
    ring

/-- Rounding to one decimal moves a rational by at most `1/20`. -/
theorem abs_round1_sub_le (q : ℚ) : |round1 q - q| ≤ 1 / 20 := by
  have h := abs_sub_round (q * 10)
  rw [abs_sub_comm] at h
  unfold round1
  have heq : ((round (q * 10) : ℤ) : ℚ) / 10 - q
      = (((round (q * 10) : ℤ) : ℚ) - q * 10) / 10 := by ring
  rw [heq, abs_div, show |(10 : ℚ)| = 10 by norm_num]
  linarith

/-- Summing the rounded values moves the sum by at most `1/20` per entry. -/
theorem sum_round1_close (K : List String) (f : String → ℚ) :
    |(K.map (fun c => round1 (f c))).sum - (K.map f).sum|
      ≤ (K.length : ℚ) / 20 := by
  induction K with
  | nil => simp
  | cons c rest ih =>
    simp only [List.map_cons, List.sum_cons, List.length_cons]
    have h1 := abs_round1_sub_le (f c)
    have heq : round1 (f c) + (rest.map (fun c => round1 (f c))).sum
          - (f c + (rest.map f).sum)
        = (round1 (f c) - f c)
          + ((rest.map (fun c => round1 (f c))).sum - (rest.map f).sum) := by
      ring
    rw [heq]
    refine le_trans (abs_add _ _) ?_
    push_cast
    linarith

/-- A list of nonpositive rationals sums to a nonpositive value. -/
theorem sum_nonpos_of_all (l : List ℚ) (h : ∀ y ∈ l, y ≤ 0) : l.sum ≤ 0 := by
  induction l with
  | nil => simp
  | cons a rest ih =>
    simp only [List.sum_cons]
    have ha := h a (List.mem_cons_self _ _)
    have hr := ih (fun y hy => h y (List.mem_cons_of_mem _ hy))
    linarith

/-- A nonempty list of negative rationals sums to a negative value. -/
theorem sum_neg_of_mem (l : List ℚ) (x : ℚ) (hx : x ∈ l)
    (hall : ∀ y ∈ l, y < 0) : l.sum < 0 := by
  induction l with
  | nil => simp at hx
  | cons a rest _ =>
    simp only [List.sum_cons]
    have ha := hall a (List.mem_cons_self _ _)
    have hr := sum_nonpos_of_all rest
      (fun y hy => le_of_lt (hall y (List.mem_cons_of_mem _ hy)))
    linarith

/-- C5: over categorized transactions whose expense and income categories do
not overlap (as the categorizer guarantees when `type` agrees with the
amount sign), and with at least one expense present, the
`percentage_of_total` values of the expense entries of `by_category` sum to
100 up to the 1-decimal rounding tolerance, and every income entry reports
`percentage_of_total = 0`. -/
theorem claim_C5 : ∀ ts : List Transaction,
    (∀ t ∈ ts, t.amount < 0 → ∀ u ∈ ts, 0 < u.amount → t.category ≠ u.category) →
    (∃ t ∈ ts, t.amount < 0) →
    |(((analyzeByCategory ts).filter (fun e => e.2.ctype = "expense")).map
        (fun e => e.2.pctOfTotal)).sum - 100|
      ≤ (((analyzeByCategory ts).filter
          (fun e => e.2.ctype = "expense")).length : ℚ) / 20
    ∧ (∀ e ∈ analyzeByCategory ts, e.2.ctype = "income" → e.2.pctOfTotal = 0) := by
  intro ts hdisj hex
  have hcatdisj : ∀ c ∈ expCatsOf ts, c ∉ incCatsOf ts := by
    intro c hc hcinc
    rw [expCatsOf, mem_uniqueKeys] at hc
    rw [incCatsOf, mem_uniqueKeys] at hcinc
    obtain ⟨t, ht, htc⟩ := List.mem_map.mp hc
    obtain ⟨u, hu, huc⟩ := List.mem_map.mp hcinc
    have ht' := List.mem_filter.mp ht
    have hu' := List.mem_filter.mp hu
    exact hdisj t ht'.1 (by simpa using ht'.2) u hu'.1 (by simpa using hu'.2)
      (htc.trans huc.symm)
  have hfilter1 : ((expCatsOf ts).map (expEntryOf ts)).filter
      (fun e => e.1 ∉ incCatsOf ts) = (expCatsOf ts).map (expEntryOf ts) := by
    apply List.filter_eq_self.mpr
    intro e he
    obtain ⟨c, hc, rfl⟩ := List.mem_map.mp he
    simpa [expEntryOf] using hcatdisj c hc
  have hfilter2 : (((incCatsOf ts).map (incEntryOf ts)).filter
      (fun e => e.2.ctype = "expense")) = [] := by
    apply List.filter_eq_nil_iff.mpr
    intro e he
    obtain ⟨c, hc, rfl⟩ := List.mem_map.mp he
    simp [incEntryOf]
  have hfilter3 : (((expCatsOf ts).map (expEntryOf ts)).filter
      (fun e => e.2.ctype = "expense")) = (expCatsOf ts).map (expEntryOf ts) := by
    apply List.filter_eq_self.mpr
    intro e he
    obtain ⟨c, hc, rfl⟩ := List.mem_map.mp he
    simp [expEntryOf]
  have hes : (analyzeByCategory ts).filter (fun e => e.2.ctype = "expense")
      = (expCatsOf ts).map (expEntryOf ts) := by
    rw [analyzeByCategory, hfilter1, List.filter_append, hfilter3, hfilter2,
      List.append_nil]
  obtain ⟨t0, ht0, ht0neg⟩ := hex
  have ht0mem : t0 ∈ expenseTxsOf ts :=
    List.mem_filter.mpr ⟨ht0, by simpa using ht0neg⟩
  have hc0 : t0.category ∈ expCatsOf ts := by
    rw [expCatsOf, mem_uniqueKeys]
    exact List.mem_map_of_mem _ ht0mem
  have hspent0 : 0 < catSpent (expenseTxsOf ts) t0.category := by
    rw [catSpent]
    apply abs_pos.mpr
    apply ne_of_lt
    apply sum_neg_of_mem _ t0.amount
    · exact List.mem_map_of_mem _ (List.mem_filter.mpr ⟨ht0mem, by simp⟩)
    · intro y hy
      obtain ⟨u, hu, rfl⟩ := List.mem_map.mp hy
      have := (List.mem_filter.mp (List.mem_filter.mp hu).1).2
      simpa using this
  have hT : 0 < totalExpCat ts := by
    rw [totalExpCat]
    have hle : catSpent (expenseTxsOf ts) t0.category
        ≤ ((expCatsOf ts).map (catSpent (expenseTxsOf ts))).sum := by
      apply List.single_le_sum
      · intro x hx
        obtain ⟨c, _, rfl⟩ := List.mem_map.mp hx
        exact abs_nonneg _
      · exact List.mem_map_of_mem _ hc0
    linarith
  constructor
  · rw [hes, List.map_map, List.length_map]
    have hcomp : ((fun e : String × CatStats => e.2.pctOfTotal) ∘ expEntryOf ts)
        = fun c => round1 (catPct ts c) := rfl
    rw [hcomp]
    have hsum : ((expCatsOf ts).map (fun c => catPct ts c)).sum = 100 := by
      have hpt : ∀ c ∈ expCatsOf ts,
          catPct ts c = catSpent (expenseTxsOf ts) c / totalExpCat ts * 100 :=
        fun c _ => by rw [catPct, if_pos hT]
      rw [List.map_congr_left hpt, sum_map_pct]
      show totalExpCat ts / totalExpCat ts * 100 = 100
      rw [div_self (ne_of_gt hT), one_mul]
    calc |((expCatsOf ts).map (fun c => round1 (catPct ts c))).sum - 100|
        = |((expCatsOf ts).map (fun c => round1 (catPct ts c))).sum
            - ((expCatsOf ts).map (fun c => catPct ts c)).sum| := by rw [hsum]
      _ ≤ ((expCatsOf ts).length : ℚ) / 20 := sum_round1_close _ _
  · intro e he hty
    rw [analyzeByCategory] at he
    rcases List.mem_append.mp he with h1 | h2
    · obtain ⟨c, _, rfl⟩ := List.mem_map.mp (List.mem_of_mem_filter h1)
      simp [expEntryOf] at hty
    · obtain ⟨c, _, rfl⟩ := List.mem_map.mp h2
      rfl

/-- Two expense categories (30 % and 70 %) and one income category. -/
def egC5 : List Transaction :=
  [⟨⟨2024, 2, 1⟩, "a", -30, "Debit", "A", none⟩,
   ⟨⟨2024, 2, 2⟩, "b", -70, "Debit", "B", none⟩,
   ⟨⟨2024, 2, 3⟩, "c", 100, "Credit", "Income", none⟩]

set_option maxRecDepth 20000 in
/-- Witness for C5 at a concrete categorized batch. -/
theorem claim_C5_witness :
    |(((analyzeByCategory egC5).filter (fun e => e.2.ctype = "expense")).map
        (fun e => e.2.pctOfTotal)).sum - 100|
      ≤ (((analyzeByCategory egC5).filter
          (fun e => e.2.ctype = "expense")).length : ℚ) / 20
    ∧ (∀ e ∈ analyzeByCategory egC5, e.2.ctype = "income" → e.2.pctOfTotal = 0) :=
  claim_C5 egC5 (by with_unfolding_all decide) (by with_unfolding_all decide)

end PFA
